import Mathlib

/-!
Verification development for the EBA disclosure-consistency pipeline.

The Python pipeline (scripts step1b_fixed_parser.py, step2b_taxonomy_quantscore.py,
step2c_currency_fix.py, step3_das_scoring.py) is embedded shallowly:

* reported numeric facts are rationals (ℚ); a pandas NaN / missing value is
  modelled as `none : Option ℚ`;
* per-row dictionary records become Lean structures whose fields are the keys
  the scripts read and write;
* the pandas NaN-propagation rules of the scripts (`x * sf if pd.notna(x) else
  np.nan`, `a - b` on possibly-NaN floats, division guarded by `> 0` checks)
  become explicit `Option` plumbing.
-/

namespace EbaDisclosure

/-! ## Step 1b — fixed parser (step1b_fixed_parser.py)

`parse_bank` reads `decimalsMonetary` from parameters.csv (default -6, and -6
again when the string does not parse as an integer), but then sets
`result["scale_factor"] = 1 / 1e6` unconditionally: the EBA P3DH convention is
that dividing the stored factValue by 1e6 always yields local-currency
millions, regardless of the declared exponent. -/

/-- decimalsMonetary resolution (lines 81-86): missing or unparseable input
falls back to -6. The already-parsed-integer-or-failure outcome of Python
`int(...)` is modelled as `Option Int`. -/
def resolveDecimals (raw : Option Int) : Int := raw.getD (-6)

/-- Line 114: `result["scale_factor"] = 1 / 1e6`, for every value of
`decimals` previously stored in the record. -/
def scale_factor (decimals : Int) : ℚ := 1 / 1000000

/-- Raw Template 1 facts that `parse_bank` reads through `dp_vals.get`
(grand total dp471828 and the four CPRS fossil datapoints of `CPRS_DPS`);
a datapoint absent from k_41.00.csv is `none`. -/
structure T1Raw where
  rawGrand : Option ℚ
  rawCoal : Option ℚ
  rawOilgas : Option ℚ
  rawPetrol : Option ℚ
  rawGas : Option ℚ
  deriving DecidableEq

/-- Per-component output field (lines 140-148): `raw * sf` when the raw value
is present and strictly positive, else the field is written as `0.0`.
The output dictionary value is modelled as `Option ℚ` so that presence
versus absence of a normalized number is expressible; the code always
writes a number here, never NaN. -/
def compOut (sf : ℚ) (raw : Option ℚ) : Option ℚ :=
  match raw with
  | some v => if 0 < v then some (v * sf) else some 0
  | none => some 0

/-- Contribution of one component to the accumulating `fossil_total`
(lines 141-145): only present, strictly positive raw values contribute. -/
def compContrib (sf : ℚ) (raw : Option ℚ) : ℚ :=
  match raw with
  | some v => if 0 < v then v * sf else 0
  | none => 0

/-- `fossil_found` flag for one component (line 146). -/
def compFound (raw : Option ℚ) : Bool :=
  match raw with
  | some v => decide (0 < v)
  | none => false

/-- The numeric fields `parse_bank` writes for Template 1 (lines 131-159). -/
structure BankT1 where
  decimals : Int
  total_gca_m_local : Option ℚ
  coal_m_local : Option ℚ
  oilgas_m_local : Option ℚ
  petrol_m_local : Option ℚ
  gas_m_local : Option ℚ
  fossil_total_m_local : ℚ
  quant_score : Option ℚ
  quant_score_pct : Option ℚ
  deriving DecidableEq

/-- Template 1 part of `parse_bank` (step1b_fixed_parser.py lines 131-159):
grand total is `raw_total * sf` when present else NaN; each fossil component
contributes `raw * sf` when present and positive; `fossil_total` is the
accumulated sum when any component was found, else `0.0` (the accumulator is
also `0.0` then, so the gate is numerically vacuous); the quant score divides
`fossil_total` by the grand total when that is present and positive, else NaN. -/
def parse_bank_t1 (decimals : Int) (t : T1Raw) : BankT1 :=
  let sf := scale_factor decimals
  let total := t.rawGrand.map (fun v => v * sf)
  let fossilAcc := compContrib sf t.rawCoal + compContrib sf t.rawOilgas +
    compContrib sf t.rawPetrol + compContrib sf t.rawGas
  let found := compFound t.rawCoal || compFound t.rawOilgas ||
    compFound t.rawPetrol || compFound t.rawGas
  { decimals := decimals
    total_gca_m_local := total
    coal_m_local := compOut sf t.rawCoal
    oilgas_m_local := compOut sf t.rawOilgas
    petrol_m_local := compOut sf t.rawPetrol
    gas_m_local := compOut sf t.rawGas
    fossil_total_m_local := if found then fossilAcc else 0
    quant_score :=
      match total with
      | some tv => if 0 < tv then some (fossilAcc / tv) else none
      | none => none
    quant_score_pct :=
      match total with
      | some tv => if 0 < tv then some (fossilAcc / tv * 100) else none
      | none => none }

/-! ## Step 2b — taxonomy quant score (step2b_taxonomy_quantscore.py)

The per-bank loop reads one value per fossil datapoint column (possibly NaN),
keeps the present strictly positive ones (`pd.notna(val) and val > 0`,
lines 95-101), sums them (`sum(fossil_vals) if fossil_vals else np.nan`,
line 103) and classifies coverage against the grand total (lines 113-124). -/

/-- Coverage classification of one exposure result. -/
inductive Coverage where
  | full
  | zero_fossil
  | no_data
  deriving DecidableEq

/-- The list `fossil_vals` (lines 93-98): present, strictly positive
component values, in column order. -/
def fossil_vals (comps : List (Option ℚ)) : List ℚ :=
  (comps.filterMap id).filter (fun v => decide (0 < v))

/-- `fossil_total = sum(fossil_vals) if fossil_vals else np.nan` (line 103). -/
def fossil_total_raw (comps : List (Option ℚ)) : Option ℚ :=
  match fossil_vals comps with
  | [] => none
  | v :: vs => some (v :: vs).sum

/-- One row of the quant-score table, the fields written at lines 131-148
that later stages read (the per-sector breakdown columns written there are
carried separately in `QsSectors` for step 2c). -/
structure ExposureResult where
  quant_score : Option ℚ
  fossil_total : Option ℚ
  coverage : Coverage
  deriving DecidableEq

/-- The coverage / quant-score branch of the step 2b loop (lines 113-124):

* `fossil_total` and `grand_total` present with `grand_total > 0` →
  `quant_score = fossil_total / grand_total`, coverage `full`;
* otherwise `grand_total` present and `> 0` → `quant_score = 0`,
  `fossil_total` reassigned to `0`, coverage `zero_fossil`;
* otherwise `quant_score = NaN`, coverage `no_data` (the `fossil_total`
  variable keeps whatever value line 103 gave it). -/
def computeExposure (grand : Option ℚ) (comps : List (Option ℚ)) : ExposureResult :=
  match fossil_total_raw comps, grand with
  | some ft, some gt =>
      if 0 < gt then ⟨some (ft / gt), some ft, Coverage.full⟩
      else ⟨none, some ft, Coverage.no_data⟩
  | none, some gt =>
      if 0 < gt then ⟨some 0, some 0, Coverage.zero_fossil⟩
      else ⟨none, none, Coverage.no_data⟩
  | some ft, none => ⟨none, some ft, Coverage.no_data⟩
  | none, none => ⟨none, none, Coverage.no_data⟩

/-- Rescaling a raw component list by a common factor, `Option.map` lifted
over the possibly-missing entries. -/
def scaleComps (k : ℚ) (comps : List (Option ℚ)) : List (Option ℚ) :=
  comps.map (Option.map (fun v => k * v))

/-! ## Step 2c — currency correction (step2c_currency_fix.py)

`get_fx_rate` normalizes the currency string with
`str(currency).replace("iso4217:", "").strip().upper()`, picks the 2025-12-31
snapshot when the substring `"2025-12"` occurs in the reference period and
the 2025-06-30 snapshot otherwise, and falls back to `(1.0, "assumed_EUR")`
for currencies outside the chosen table. The Python string operations are
embedded as structural recursions over the character list. -/

/-- `str.replace("iso4217:", "")`: delete every occurrence of the fixed
8-character tag, scanning left to right (Python replace semantics for a
fixed pattern and empty replacement). -/
def stripTagChars : List Char → List Char
  | 'i' :: 's' :: 'o' :: '4' :: '2' :: '1' :: '7' :: ':' :: rest => stripTagChars rest
  | c :: cs => c :: stripTagChars cs
  | [] => []

/-- Python `str.strip()` whitespace set. -/
def pyWs (c : Char) : Bool :=
  c == ' ' || c == '\t' || c == '\n' || c == '\r' || c == '\x0b' || c == '\x0c'

/-- Python `str.strip()`: drop leading and trailing whitespace. -/
def trimChars (l : List Char) : List Char :=
  ((l.dropWhile pyWs).reverse.dropWhile pyWs).reverse

/-- Python `str.upper()` on the character list. -/
def upperChars : List Char → List Char
  | [] => []
  | c :: cs => c.toUpper :: upperChars cs

/-- The currency normalization of `get_fx_rate` line 80 (also repeated at
line 139): strip the `iso4217:` tag, strip whitespace, upper-case. -/
def normalizeCcy (c : String) : String :=
  ⟨upperChars (trimChars (stripTagChars c.data))⟩

/-- Python `"2025-12" in str(ref_period)` (line 82). -/
def hasH2Tag : List Char → Bool
  | '2' :: '0' :: '2' :: '5' :: '-' :: '1' :: '2' :: _ => true
  | _ :: cs => hasH2Tag cs
  | [] => false

/-- `ECB_RATES_20250630` (lines 39-56), rationals in place of the float
literals. -/
def ecb_rates_20250630 : List (String × ℚ) :=
  [ ("EUR", 1), ("HUF", 2538 / 1000000), ("PLN", 232019 / 1000000),
    ("RON", 200803 / 1000000), ("SEK", 87108 / 1000000),
    ("DKK", 134228 / 1000000), ("CZK", 40161 / 1000000),
    ("HRK", 132626 / 1000000), ("CHF", 1063830 / 1000000),
    ("GBP", 1175978 / 1000000), ("USD", 921659 / 1000000),
    ("NOK", 86957 / 1000000), ("BGN", 511292 / 1000000),
    ("ALL", 9709 / 1000000), ("RSD", 8547 / 1000000),
    ("BAM", 511292 / 1000000) ]

/-- `ECB_RATES_20251231` (lines 58-73). -/
def ecb_rates_20251231 : List (String × ℚ) :=
  [ ("EUR", 1), ("HUF", 2525 / 1000000), ("PLN", 230000 / 1000000),
    ("RON", 200000 / 1000000), ("SEK", 86000 / 1000000),
    ("DKK", 134228 / 1000000), ("CZK", 39526 / 1000000),
    ("CHF", 1052632 / 1000000), ("GBP", 1162791 / 1000000),
    ("USD", 909091 / 1000000), ("NOK", 85000 / 1000000),
    ("BGN", 511292 / 1000000) ]

/-- `get_fx_rate(currency, ref_period)` (lines 75-93): returns the rate and
its source note; unknown currencies get `(1.0, "assumed_EUR")`. -/
def get_fx_rate (currency ref_period : String) : ℚ × String :=
  let c := normalizeCcy currency
  let inDec := hasH2Tag ref_period.data
  let rates := if inDec then ecb_rates_20251231 else ecb_rates_20250630
  let date := if inDec then "2025-12-31" else "2025-06-30"
  match rates.lookup c with
  | some r => (r, "ECB SDW " ++ date)
  | none => (1, "assumed_EUR")

/-- The fields of one `quantscore_taxonomy.csv` row that the step 2c
conversion loop reads (lines 145-176): the two ratio fields, the two
absolute totals (possibly NaN), and the four per-sector breakdown columns
it carries over (`row.get(..., 0)`; step 2b always writes numbers there). -/
structure QsRow where
  quant_score : Option ℚ
  quant_score_pct : Option ℚ
  grand_total_eur_m : Option ℚ
  fossil_total_eur_m : Option ℚ
  b5_coal : ℚ
  b6_oilgas : ℚ
  c19_petrol : ℚ
  d35_2_gas : ℚ
  deriving DecidableEq

/-- The numeric fields of one `quantscore_final.csv` row written at
lines 155-177. -/
structure FxRow where
  fx_rate_to_eur : ℚ
  quant_score : Option ℚ
  quant_score_pct : Option ℚ
  gca_reported_m : Option ℚ
  fossil_reported_m : Option ℚ
  gca_eur_m : Option ℚ
  fossil_eur_m : Option ℚ
  b5_coal_eur : ℚ
  b6_oilgas_eur : ℚ
  c19_petrol_eur : ℚ
  d35_2_gas_eur : ℚ
  deriving DecidableEq

/-- The per-row FX conversion of the step 2c main loop (lines 137-177):
ratio fields are copied unchanged; each absolute monetary figure is
multiplied by the rate (NaN propagating for the two totals); the reported
figures are kept alongside, unconverted. -/
def convertRow (row : QsRow) (rate : ℚ) : FxRow :=
  { fx_rate_to_eur := rate
    quant_score := row.quant_score
    quant_score_pct := row.quant_score_pct
    gca_reported_m := row.grand_total_eur_m
    fossil_reported_m := row.fossil_total_eur_m
    gca_eur_m := row.grand_total_eur_m.map (fun v => v * rate)
    fossil_eur_m := row.fossil_total_eur_m.map (fun v => v * rate)
    b5_coal_eur := row.b5_coal * rate
    b6_oilgas_eur := row.b6_oilgas * rate
    c19_petrol_eur := row.c19_petrol * rate
    d35_2_gas_eur := row.d35_2_gas * rate }

/-! ## Step 3 — composite index (step3_das_scoring.py, `compute_dci`)

`compute_dci` merges the DAS table into the quant-score table with
`das_df.merge(qs_df[...].drop_duplicates("lei"), on="lei", how="left")`,
normalizes `quant_score_pct` by `qs_df["quant_score_pct"].max()` (the
maximum over the full quant-score table, NaN entries skipped), computes
`dci = das_normalized - quant_score_normalized`, rounds the three derived
columns to 4 decimals, and sorts by `dci` descending (NaN rows last).

Float-NaN arithmetic is modelled on `Option ℚ`: any operation with a missing
operand is missing. Division by zero cannot arise in the sample semantics
(the normalizer is only finite when the maximum is nonzero) and is mapped to
missing. `round4` is round-half-up at 4 decimals; the pandas rounding
differs from it only on exact half-way ties, which no theorem below
touches. -/

/-- One row of the DAS table entering `compute_dci`: the LEI and the
normalized DAS (NaN for a failed scoring call). -/
structure DasRow where
  lei : String
  das_normalized : Option ℚ
  deriving DecidableEq

/-- One row of the quant-score table entering `compute_dci`. -/
structure QsFinalRow where
  lei : String
  quant_score_pct : Option ℚ
  deriving DecidableEq

/-- `qs_df["quant_score_pct"].max()` — pandas max skips NaN entries and is
NaN on an all-NaN or empty column. -/
def qs_max (qs : List QsFinalRow) : Option ℚ :=
  (qs.filterMap (fun r => r.quant_score_pct)).max?

/-- NaN-propagating division (missing if either operand is missing, and on
a zero divisor). -/
def optDiv (a b : Option ℚ) : Option ℚ :=
  match a, b with
  | some x, some y => if y = 0 then none else some (x / y)
  | _, _ => none

/-- NaN-propagating subtraction. -/
def optSub (a b : Option ℚ) : Option ℚ :=
  match a, b with
  | some x, some y => some (x - y)
  | _, _ => none

/-- `.round(4)` (round half up; see the section comment). -/
def round4 (x : ℚ) : ℚ := (⌊x * 10000 + 1 / 2⌋ : ℚ) / 10000

/-- One output row of `compute_dci`. -/
structure DciRow where
  lei : String
  das_normalized : Option ℚ
  quant_score_pct : Option ℚ
  quant_score_normalized : Option ℚ
  dci : Option ℚ
  deriving DecidableEq

/-- The row-level body of `compute_dci` (lines 335-352): left-merge of the
quant-score columns onto one DAS row (`drop_duplicates("lei")` keeps the
first match, here `List.find?`), normalization by the full-sample maximum,
DCI as the difference, then rounding of the three derived columns. -/
def dci_row (qs : List QsFinalRow) (d : DasRow) : DciRow :=
  let q := (qs.find? (fun r => r.lei == d.lei)).bind (fun r => r.quant_score_pct)
  let qn := optDiv q (qs_max qs)
  { lei := d.lei
    das_normalized := d.das_normalized.map round4
    quant_score_pct := q
    quant_score_normalized := qn.map round4
    dci := (optSub d.das_normalized qn).map round4 }

/-- Descending order on the DCI column, missing values last
(`sort_values("dci", ascending=False)`, NaN placed last by pandas). -/
def dciDescLe (a b : DciRow) : Bool :=
  match a.dci, b.dci with
  | some x, some y => decide (y ≤ x)
  | some _, none => true
  | none, some _ => false
  | none, none => true

/-- Stable insertion into a list sorted by `dciDescLe`. -/
def insertDci (a : DciRow) : List DciRow → List DciRow
  | [] => [a]
  | b :: bs => if dciDescLe a b then a :: b :: bs else b :: insertDci a bs

/-- Stable sort by `dciDescLe` (models `sort_values("dci", ascending=False)`). -/
def sortDci : List DciRow → List DciRow
  | [] => []
  | a :: as => insertDci a (sortDci as)

/-- `compute_dci(das_df, qs_df)` (lines 317-357): one output row per DAS row
(left merge), sorted by DCI descending. -/
def compute_dci (das : List DasRow) (qs : List QsFinalRow) : List DciRow :=
  sortDci (das.map (dci_row qs))

/-- Inserting preserves the rows up to permutation. -/
theorem insertDci_perm (a : DciRow) (l : List DciRow) :
    (insertDci a l).Perm (a :: l) := by
  induction l with
  | nil => exact List.Perm.refl _
  | cons b bs ih =>
      unfold insertDci
      by_cases h : dciDescLe a b
      · rw [if_pos h]
      · rw [if_neg h]
        exact (ih.cons b).trans (List.Perm.swap a b bs)

/-- Sorting preserves the rows up to permutation. -/
theorem sortDci_perm (l : List DciRow) : (sortDci l).Perm l := by
  induction l with
  | nil => exact List.Perm.refl _
  | cons a as ih =>
      unfold sortDci
      exact (insertDci_perm a (sortDci as)).trans (ih.cons a)

/-! ## Helper lemmas -/

/-- A component that was not found contributes nothing to the accumulator. -/
theorem compContrib_eq_zero (sf : ℚ) (raw : Option ℚ) (h : compFound raw = false) :
    compContrib sf raw = 0 := by
  cases raw with
  | none => rfl
  | some v =>
      simp only [compFound, decide_eq_false_iff_not] at h
      simp [compContrib, h]

/-! ## Claims on step 1b -/

/-- C1: for every present raw fact value and every declared decimal-scale
exponent, the canonical-millions output of the parser equals the raw value
divided by 1,000,000; all numeric outputs coincide for any two exponents
(the exponent never enters the computation as a multiplier), the scale
factor is 1/1e6 for every exponent, and the two documented fixture values
evaluate as the spec states. -/
theorem c1_unit_normalizer_div_1e6 :
    (∀ (d d' : Int) (t : T1Raw),
      (parse_bank_t1 d t).total_gca_m_local = t.rawGrand.map (fun v => v / 1000000) ∧
      scale_factor d = 1 / 1000000 ∧
      (parse_bank_t1 d t).total_gca_m_local = (parse_bank_t1 d' t).total_gca_m_local ∧
      (parse_bank_t1 d t).coal_m_local = (parse_bank_t1 d' t).coal_m_local ∧
      (parse_bank_t1 d t).oilgas_m_local = (parse_bank_t1 d' t).oilgas_m_local ∧
      (parse_bank_t1 d t).petrol_m_local = (parse_bank_t1 d' t).petrol_m_local ∧
      (parse_bank_t1 d t).gas_m_local = (parse_bank_t1 d' t).gas_m_local ∧
      (parse_bank_t1 d t).fossil_total_m_local = (parse_bank_t1 d' t).fossil_total_m_local ∧
      (parse_bank_t1 d t).quant_score = (parse_bank_t1 d' t).quant_score) ∧
    (parse_bank_t1 (-6) ⟨some 906142873, none, none, none, none⟩).total_gca_m_local
      = some (906142873 / 1000000) ∧
    (parse_bank_t1 2 ⟨some 108798072832, none, none, none, none⟩).total_gca_m_local
      = some (108798072832 / 1000000) := by
  refine ⟨fun d d' t => ⟨?_, rfl, rfl, rfl, rfl, rfl, rfl, rfl, rfl⟩, ?_, ?_⟩
  · cases h : t.rawGrand with
    | none => simp [parse_bank_t1, h]
    | some v => simp [parse_bank_t1, scale_factor, h, div_eq_mul_inv]
  · norm_num [parse_bank_t1, scale_factor]
  · norm_num [parse_bank_t1, scale_factor]

/-- C7 counterexample: a fossil-component datapoint whose raw value is
absent produces the present output `0.0`, not an absent output, so absence
is not propagated for component fields. -/
theorem c7_component_coerced_to_zero_cex :
    (parse_bank_t1 (-6) ⟨some 5, none, some 3, none, none⟩).coal_m_local = some 0 ∧
    some (0 : ℚ) ≠ (none : Option ℚ) :=
  ⟨rfl, by simp⟩

/-- C7 amended: an absent grand-total raw value propagates to an absent
normalized grand total (never zero), and a present one maps to raw/1e6;
an absent fossil-component raw value contributes nothing to `fossil_total`
(the total equals the sum of the remaining contributions), but its
per-component output field is written as `0.0`, not left absent. -/
theorem c7_missing_value_propagation (d : Int) (t : T1Raw) :
    (t.rawGrand = none → (parse_bank_t1 d t).total_gca_m_local = none) ∧
    (∀ v, t.rawGrand = some v →
      (parse_bank_t1 d t).total_gca_m_local = some (v / 1000000)) ∧
    (t.rawCoal = none → (parse_bank_t1 d t).coal_m_local = some 0 ∧
      (parse_bank_t1 d t).fossil_total_m_local =
        compContrib (scale_factor d) t.rawOilgas +
          compContrib (scale_factor d) t.rawPetrol +
          compContrib (scale_factor d) t.rawGas) ∧
    (t.rawGas = none → (parse_bank_t1 d t).gas_m_local = some 0 ∧
      (parse_bank_t1 d t).fossil_total_m_local =
        compContrib (scale_factor d) t.rawCoal +
          compContrib (scale_factor d) t.rawOilgas +
          compContrib (scale_factor d) t.rawPetrol) := by
  refine ⟨fun h => ?_, fun v h => ?_, fun h => ⟨?_, ?_⟩, fun h => ⟨?_, ?_⟩⟩
  · simp [parse_bank_t1, h]
  · simp [parse_bank_t1, h, scale_factor, div_eq_mul_inv]
  · simp [parse_bank_t1, h, compOut]
  · by_cases hf : (compFound t.rawCoal || compFound t.rawOilgas ||
        compFound t.rawPetrol || compFound t.rawGas) = true
    · simp only [h] at hf
      simp only [parse_bank_t1, h]
      rw [if_pos hf, compContrib_eq_zero _ none rfl]
      ring
    · simp only [h] at hf
      simp only [Bool.not_eq_true, Bool.or_eq_false_iff] at hf
      obtain ⟨⟨⟨h1, h2⟩, h3⟩, h4⟩ := hf
      simp only [parse_bank_t1, h]
      rw [if_neg (by simp [h1, h2, h3, h4])]
      rw [compContrib_eq_zero _ _ h2, compContrib_eq_zero _ _ h3,
        compContrib_eq_zero _ _ h4]
      norm_num
  · simp [parse_bank_t1, h, compOut]
  · by_cases hf : (compFound t.rawCoal || compFound t.rawOilgas ||
        compFound t.rawPetrol || compFound t.rawGas) = true
    · simp only [h] at hf
      simp only [parse_bank_t1, h]
      rw [if_pos hf, compContrib_eq_zero _ none rfl]
      ring
    · simp only [h] at hf
      simp only [Bool.not_eq_true, Bool.or_eq_false_iff] at hf
      obtain ⟨⟨⟨h1, h2⟩, h3⟩, h4⟩ := hf
      simp only [parse_bank_t1, h]
      rw [if_neg (by simp [h1, h2, h3, h4])]
      rw [compContrib_eq_zero _ _ h1, compContrib_eq_zero _ _ h2,
        compContrib_eq_zero _ _ h3]
      norm_num

/-- C7 witness: the amended statement evaluated at an input with an absent
grand total, an absent coal component, an absent gas component, and one
present oil-and-gas component of 4,000,000. -/
theorem c7_missing_value_propagation_witness :
    (parse_bank_t1 (-6) ⟨none, none, some 4000000, none, none⟩).total_gca_m_local = none ∧
    (parse_bank_t1 (-6) ⟨none, none, some 4000000, none, none⟩).coal_m_local = some 0 ∧
    (parse_bank_t1 (-6) ⟨none, none, some 4000000, none, none⟩).fossil_total_m_local =
      compContrib (scale_factor (-6)) (some 4000000) +
        compContrib (scale_factor (-6)) none + compContrib (scale_factor (-6)) none := by
  have h := c7_missing_value_propagation (-6) ⟨none, none, some 4000000, none, none⟩
  exact ⟨h.1 rfl, (h.2.2.1 rfl).1, (h.2.2.1 rfl).2⟩

/-! ## Claims on step 2b -/

/-- Every entry of `fossil_vals` is strictly positive. -/
theorem fossil_vals_pos (comps : List (Option ℚ)) :
    ∀ x ∈ fossil_vals comps, 0 < x := by
  intro x hx
  unfold fossil_vals at hx
  have := List.of_mem_filter hx
  simpa using this

/-- The sum of `fossil_vals` is nonnegative. -/
theorem fossil_vals_sum_nonneg (comps : List (Option ℚ)) :
    0 ≤ (fossil_vals comps).sum :=
  List.sum_nonneg fun x hx => le_of_lt (fossil_vals_pos comps x hx)

/-- A value produced by `fossil_total_raw` is the sum of the positive present
components, and is nonnegative. -/
theorem fossil_total_raw_some (comps : List (Option ℚ)) (ft : ℚ)
    (h : fossil_total_raw comps = some ft) :
    ft = (fossil_vals comps).sum ∧ 0 ≤ ft := by
  unfold fossil_total_raw at h
  cases hfv : fossil_vals comps with
  | nil => rw [hfv] at h; exact absurd h (by simp)
  | cons v vs =>
      rw [hfv] at h
      simp only [Option.some.injEq] at h
      subst h
      exact ⟨by simp [hfv], by
        have := fossil_vals_sum_nonneg comps
        rwa [hfv] at this⟩

/-- `fossil_total_raw` is `none` exactly when no positive present component
exists. -/
theorem fossil_total_raw_none_iff (comps : List (Option ℚ)) :
    fossil_total_raw comps = none ↔ fossil_vals comps = [] := by
  unfold fossil_total_raw
  cases hfv : fossil_vals comps <;> simp

/-- C2: the exposure computation yields exactly the three documented
outcomes: positive grand total with at least one positive fossil component
gives coverage `full` and ratio `fossil_total / grand_total`; positive grand
total with no positive fossil component gives `zero_fossil` with fossil
total and ratio 0; absent or non-positive grand total gives `no_data` with
an absent ratio. -/
theorem c2_coverage_trichotomy (grand : Option ℚ) (comps : List (Option ℚ)) :
    (∀ gt, grand = some gt → 0 < gt → fossil_vals comps ≠ [] →
      (computeExposure grand comps).coverage = Coverage.full ∧
      (computeExposure grand comps).quant_score = some ((fossil_vals comps).sum / gt) ∧
      (computeExposure grand comps).fossil_total = some ((fossil_vals comps).sum)) ∧
    (∀ gt, grand = some gt → 0 < gt → fossil_vals comps = [] →
      (computeExposure grand comps).coverage = Coverage.zero_fossil ∧
      (computeExposure grand comps).quant_score = some 0 ∧
      (computeExposure grand comps).fossil_total = some 0) ∧
    ((grand = none ∨ ∃ gt, grand = some gt ∧ gt ≤ 0) →
      (computeExposure grand comps).coverage = Coverage.no_data ∧
      (computeExposure grand comps).quant_score = none) := by
  refine ⟨fun gt hg hpos hne => ?_, fun gt hg hpos hnil => ?_, fun h => ?_⟩
  · subst hg
    cases hfv : fossil_vals comps with
    | nil => exact absurd hfv hne
    | cons v vs =>
        have hs : fossil_total_raw comps = some ((fossil_vals comps).sum) := by
          unfold fossil_total_raw
          rw [hfv]
        simp [computeExposure, hs, hpos, hfv]
  · subst hg
    have hs : fossil_total_raw comps = none := (fossil_total_raw_none_iff comps).mpr hnil
    simp [computeExposure, hs, hpos]
  · rcases h with h | ⟨gt, hg, hle⟩
    · subst h
      cases hs : fossil_total_raw comps <;> simp [computeExposure, hs]
    · subst hg
      cases hs : fossil_total_raw comps <;>
        simp [computeExposure, hs, not_lt_of_le hle]

/-- C2 witness: the three branches instantiated at concrete rows:
grand total 10 with one component 2 (full, ratio 1/5); grand total 10 with a
zero and an absent component (zero fossil); absent grand total (no data). -/
theorem c2_coverage_trichotomy_witness :
    ((computeExposure (some 10) [some 2]).coverage = Coverage.full ∧
      (computeExposure (some 10) [some 2]).quant_score =
        some ((fossil_vals [some 2]).sum / 10) ∧
      (computeExposure (some 10) [some 2]).fossil_total =
        some ((fossil_vals [some 2]).sum)) ∧
    ((computeExposure (some 10) [some 0, none]).coverage = Coverage.zero_fossil ∧
      (computeExposure (some 10) [some 0, none]).quant_score = some 0 ∧
      (computeExposure (some 10) [some 0, none]).fossil_total = some 0) ∧
    ((computeExposure none [some 2]).coverage = Coverage.no_data ∧
      (computeExposure none [some 2]).quant_score = none) := by
  refine ⟨?_, ?_, ?_⟩
  · exact (c2_coverage_trichotomy (some 10) [some 2]).1 10 rfl (by norm_num) (by decide)
  · exact (c2_coverage_trichotomy (some 10) [some 0, none]).2.1 10 rfl (by norm_num) rfl
  · exact (c2_coverage_trichotomy none [some 2]).2.2 (Or.inl rfl)

/-- C3 counterexample: a record whose single fossil component (2) exceeds its
positive grand total (1) is classified `full` with ratio 2, which lies
outside [0, 1]; the code puts no upper bound on the ratio. -/
theorem c3_ratio_above_one_cex :
    (computeExposure (some 1) [some 2]).coverage = Coverage.full ∧
    (computeExposure (some 1) [some 2]).quant_score = some 2 ∧
    ¬ ((2 : ℚ) ≤ 1) := by
  have hs : fossil_total_raw [some (2 : ℚ)] = some (2 + 0) := rfl
  have h1 : (0 : ℚ) < 1 := by norm_num
  refine ⟨?_, ?_, by norm_num⟩ <;> simp [computeExposure, hs, h1]

/-- C3 amended: a defined ratio is always nonnegative, and lies in [0, 1]
under the additional assumption that the fossil total does not exceed the
grand total (which the code does not enforce). -/
theorem c3_ratio_bounds (grand : Option ℚ) (comps : List (Option ℚ)) (r : ℚ)
    (h : (computeExposure grand comps).quant_score = some r) :
    0 ≤ r ∧ ∀ gt ft, grand = some gt →
      (computeExposure grand comps).fossil_total = some ft → ft ≤ gt → r ≤ 1 := by
  cases hs : fossil_total_raw comps with
  | some ft' =>
      cases grand with
      | some gt' =>
          by_cases hpos : 0 < gt'
          · have hft := fossil_total_raw_some comps ft' hs
            have hscore : (computeExposure (some gt') comps).quant_score =
                some (ft' / gt') := by simp [computeExposure, hs, hpos]
            have hfossil : (computeExposure (some gt') comps).fossil_total =
                some ft' := by simp [computeExposure, hs, hpos]
            rw [hscore] at h
            simp only [Option.some.injEq] at h
            subst h
            constructor
            · exact div_nonneg hft.2 (le_of_lt hpos)
            · intro gt ft hgt hft2 hle
              injection hgt with hgt
              subst hgt
              rw [hfossil] at hft2
              injection hft2 with hft2
              subst hft2
              exact (div_le_one hpos).mpr hle
          · simp [computeExposure, hs, hpos] at h
      | none =>
          simp [computeExposure, hs] at h
  | none =>
      cases grand with
      | some gt' =>
          by_cases hpos : 0 < gt'
          · have hscore : (computeExposure (some gt') comps).quant_score =
                some 0 := by simp [computeExposure, hs, hpos]
            rw [hscore] at h
            simp only [Option.some.injEq] at h
            subst h
            exact ⟨le_refl 0, fun gt ft hgt hft2 hle => by norm_num⟩
          · simp [computeExposure, hs, hpos] at h
      | none =>
          simp [computeExposure, hs] at h

/-- C3 witness: the amended bounds at grand total 10 and component 2:
the ratio 1/5 is nonnegative, and at most 1 since 2 ≤ 10. -/
theorem c3_ratio_bounds_witness :
    0 ≤ (1 / 5 : ℚ) ∧ ∀ gt ft, (some (10 : ℚ)) = some gt →
      (computeExposure (some 10) [some 2]).fossil_total = some ft →
      ft ≤ gt → (1 / 5 : ℚ) ≤ 1 :=
  c3_ratio_bounds (some 10) [some 2] (1 / 5) (by
    have hs : fossil_total_raw [some (2 : ℚ)] = some (2 + 0) := rfl
    have h10 : (0 : ℚ) < 10 := by norm_num
    simp [computeExposure, hs, h10]
    norm_num)

/-- `fossil_vals` ignores an absent leading component. -/
theorem fossil_vals_cons_none (l : List (Option ℚ)) :
    fossil_vals (none :: l) = fossil_vals l := rfl

/-- `fossil_vals` keeps a present leading component exactly when it is
strictly positive. -/
theorem fossil_vals_cons_some (v : ℚ) (l : List (Option ℚ)) :
    fossil_vals (some v :: l) = if 0 < v then v :: fossil_vals l else fossil_vals l := by
  unfold fossil_vals
  by_cases h : 0 < v
  · simp [h]
  · simp [h]

/-- Mapping a common positive factor over the components maps it over the
positive present values. -/
theorem fossil_vals_scale (k : ℚ) (hk : 0 < k) (comps : List (Option ℚ)) :
    fossil_vals (scaleComps k comps) = (fossil_vals comps).map (fun v => k * v) := by
  induction comps with
  | nil => rfl
  | cons x xs ih =>
      cases x with
      | none =>
          show fossil_vals (none :: scaleComps k xs) = (fossil_vals (none :: xs)).map _
          rw [fossil_vals_cons_none, fossil_vals_cons_none, ih]
      | some v =>
          show fossil_vals (some (k * v) :: scaleComps k xs)
            = (fossil_vals (some v :: xs)).map _
          rw [fossil_vals_cons_some, fossil_vals_cons_some]
          have hiff : 0 < k * v ↔ 0 < v :=
            ⟨fun hc => by nlinarith, fun hv => mul_pos hk hv⟩
          by_cases h : 0 < v
          · rw [if_pos (hiff.mpr h), if_pos h, List.map_cons, ih]
          · rw [if_neg (fun hc => h (hiff.mp hc)), if_neg h, ih]

/-- Summing a rescaled list rescales the sum. -/
theorem sum_map_mul (k : ℚ) (l : List ℚ) :
    (l.map (fun v => k * v)).sum = k * l.sum := by
  induction l with
  | nil => simp
  | cons a l ih => simp [ih, mul_add]

/-- Rescaling the components rescales the raw fossil total. -/
theorem fossil_total_raw_scale (k : ℚ) (hk : 0 < k) (comps : List (Option ℚ)) :
    fossil_total_raw (scaleComps k comps) =
      (fossil_total_raw comps).map (fun v => k * v) := by
  unfold fossil_total_raw
  rw [fossil_vals_scale k hk]
  cases hfv : fossil_vals comps with
  | nil => rfl
  | cons v vs =>
      show some ((k * v :: vs.map _).sum) = some (k * (v :: vs).sum)
      rw [Option.some.injEq, List.sum_cons, List.sum_cons, sum_map_mul, mul_add]

/-- C4: for a record with coverage `full`, rescaling the grand total and all
components by a common positive factor leaves the computed ratio unchanged
(and the coverage stays `full`). -/
theorem c4_ratio_scale_invariance (gt : ℚ) (comps : List (Option ℚ)) (k : ℚ)
    (hk : 0 < k)
    (hcov : (computeExposure (some gt) comps).coverage = Coverage.full) :
    (computeExposure (some (k * gt)) (scaleComps k comps)).coverage = Coverage.full ∧
    (computeExposure (some (k * gt)) (scaleComps k comps)).quant_score =
      (computeExposure (some gt) comps).quant_score := by
  cases hs : fossil_total_raw comps with
  | none =>
      by_cases hpos : 0 < gt
      · simp [computeExposure, hs, hpos] at hcov
      · simp [computeExposure, hs, hpos] at hcov
  | some ft =>
      by_cases hpos : 0 < gt
      · have hs' : fossil_total_raw (scaleComps k comps) = some (k * ft) := by
          rw [fossil_total_raw_scale k hk, hs]
          rfl
        have hpos' : 0 < k * gt := mul_pos hk hpos
        constructor
        · simp [computeExposure, hs', hpos']
        · have h1 : (computeExposure (some (k * gt)) (scaleComps k comps)).quant_score
              = some (k * ft / (k * gt)) := by simp [computeExposure, hs', hpos']
          have h2 : (computeExposure (some gt) comps).quant_score
              = some (ft / gt) := by simp [computeExposure, hs, hpos]
          rw [h1, h2, Option.some.injEq]
          exact mul_div_mul_left ft gt (ne_of_gt hk)
      · simp [computeExposure, hs, hpos] at hcov

/-- C4 witness: the invariance instantiated at grand total 10, one component
3, factor 2. -/
theorem c4_ratio_scale_invariance_witness :
    (computeExposure (some (2 * 10)) (scaleComps 2 [some 3])).coverage = Coverage.full ∧
    (computeExposure (some (2 * 10)) (scaleComps 2 [some 3])).quant_score =
      (computeExposure (some 10) [some 3]).quant_score :=
  c4_ratio_scale_invariance 10 [some 3] 2 (by norm_num) (by decide)

/-- C8: a present component value that is zero or negative is treated like an
absent one — prepending it changes nothing in the exposure result — and
whenever coverage is not `no_data` the fossil total equals the sum of the
strictly positive present component values. -/
theorem c8_positive_components_only (grand : Option ℚ) (comps : List (Option ℚ)) :
    (∀ x, (x = none ∨ ∃ v, x = some v ∧ v ≤ 0) →
      computeExposure grand (x :: comps) = computeExposure grand comps) ∧
    ((computeExposure grand comps).coverage ≠ Coverage.no_data →
      (computeExposure grand comps).fossil_total = some ((fossil_vals comps).sum)) := by
  constructor
  · intro x hx
    have hfv : fossil_vals (x :: comps) = fossil_vals comps := by
      rcases hx with h | ⟨v, hv, hle⟩
      · subst h; rfl
      · subst hv
        rw [fossil_vals_cons_some, if_neg (not_lt_of_le hle)]
    unfold computeExposure fossil_total_raw
    rw [hfv]
  · intro hc
    cases hs : fossil_total_raw comps with
    | some ft =>
        have hsum := (fossil_total_raw_some comps ft hs).1
        cases grand with
        | some gt' =>
            by_cases hpos : 0 < gt'
            · simp [computeExposure, hs, hpos, hsum]
            · exact absurd (by simp [computeExposure, hs, hpos]) hc
        | none => exact absurd (by simp [computeExposure, hs]) hc
    | none =>
        have hnil := (fossil_total_raw_none_iff comps).mp hs
        cases grand with
        | some gt' =>
            by_cases hpos : 0 < gt'
            · simp [computeExposure, hs, hpos, hnil]
            · exact absurd (by simp [computeExposure, hs, hpos]) hc
        | none => exact absurd (by simp [computeExposure, hs]) hc

/-- C8 witness: prepending a zero component to the row with components
2 and -3 and grand total 10 changes nothing, and the fossil total of that row is
the sum of its positive present values. -/
theorem c8_positive_components_only_witness :
    computeExposure (some 10) (some 0 :: [some 2, some (-3)]) =
      computeExposure (some 10) [some 2, some (-3)] ∧
    (computeExposure (some 10) [some 2, some (-3)]).fossil_total =
      some ((fossil_vals [some 2, some (-3)]).sum) := by
  have h := c8_positive_components_only (some 10) [some 2, some (-3)]
  exact ⟨h.1 (some 0) (Or.inr ⟨0, rfl, le_refl 0⟩), h.2 (by decide)⟩

/-! ## Claims on step 2c -/

/-- C5 counterexample: an unknown currency does yield rate 1.0, but the
provenance string the code attaches is `"assumed_EUR"`, not the tag
`"assumed"` stated by the claim. -/
theorem c5_provenance_string_cex :
    get_fx_rate "XXX" "2025-06-30" = (1, "assumed_EUR") ∧
    "assumed_EUR" ≠ "assumed" :=
  ⟨rfl, by decide⟩

/-- C5 amended: for every currency whose normalized code (namespace tag
stripped, whitespace stripped, upper-cased) is not in the rate table
selected by the period bucket, `get_fx_rate` returns exactly rate 1.0 with
provenance `"assumed_EUR"`. -/
theorem c5_unknown_currency_assumed (currency ref_period : String)
    (h : ((if hasH2Tag ref_period.data then ecb_rates_20251231
      else ecb_rates_20250630).lookup (normalizeCcy currency)) = none) :
    get_fx_rate currency ref_period = (1, "assumed_EUR") := by
  simp only [get_fx_rate]
  rw [h]

/-- C5 witness: the amended statement evaluated at the unknown currency
`iso4217:krw` (normalized to `KRW`) in the 2025-06-30 bucket. -/
theorem c5_unknown_currency_assumed_witness :
    ((if hasH2Tag ("2025-06-30" : String).data then ecb_rates_20251231
      else ecb_rates_20250630).lookup (normalizeCcy "iso4217:krw") = none) ∧
    get_fx_rate "iso4217:krw" "2025-06-30" = (1, "assumed_EUR") :=
  ⟨rfl, c5_unknown_currency_assumed "iso4217:krw" "2025-06-30" rfl⟩

/-- C6: the per-row FX conversion multiplies every absolute monetary field
(grand total, fossil total, each carried per-sector component) by the rate,
NaN propagating for the two possibly-missing totals, and copies the two
ratio fields exactly unchanged. -/
theorem c6_conversion_scales_monetary_only (row : QsRow) (rate : ℚ) :
    (∀ g, row.grand_total_eur_m = some g →
      (convertRow row rate).gca_eur_m = some (g * rate)) ∧
    (row.grand_total_eur_m = none → (convertRow row rate).gca_eur_m = none) ∧
    (∀ f, row.fossil_total_eur_m = some f →
      (convertRow row rate).fossil_eur_m = some (f * rate)) ∧
    (row.fossil_total_eur_m = none → (convertRow row rate).fossil_eur_m = none) ∧
    (convertRow row rate).b5_coal_eur = row.b5_coal * rate ∧
    (convertRow row rate).b6_oilgas_eur = row.b6_oilgas * rate ∧
    (convertRow row rate).c19_petrol_eur = row.c19_petrol * rate ∧
    (convertRow row rate).d35_2_gas_eur = row.d35_2_gas * rate ∧
    (convertRow row rate).quant_score = row.quant_score ∧
    (convertRow row rate).quant_score_pct = row.quant_score_pct := by
  refine ⟨fun g hg => ?_, fun hg => ?_, fun f hf => ?_, fun hf => ?_,
    rfl, rfl, rfl, rfl, rfl, rfl⟩
  · simp [convertRow, hg]
  · simp [convertRow, hg]
  · simp [convertRow, hf]
  · simp [convertRow, hf]

/-- C6 witness: the conversion evaluated at a concrete row (grand total 100,
fossil total 7, sector components 1, 2, 3, 4, ratio fields 7/100 and 7)
under rate 1/2. -/
theorem c6_conversion_scales_monetary_only_witness :
    (convertRow ⟨some (7 / 100), some 7, some 100, some 7, 1, 2, 3, 4⟩
      (1 / 2)).gca_eur_m = some (100 * (1 / 2)) ∧
    (convertRow ⟨some (7 / 100), some 7, some 100, some 7, 1, 2, 3, 4⟩
      (1 / 2)).fossil_eur_m = some (7 * (1 / 2)) ∧
    (convertRow ⟨some (7 / 100), some 7, some 100, some 7, 1, 2, 3, 4⟩
      (1 / 2)).quant_score = some (7 / 100) := by
  have h := c6_conversion_scales_monetary_only
    ⟨some (7 / 100), some 7, some 100, some 7, 1, 2, 3, 4⟩ (1 / 2)
  exact ⟨h.1 100 rfl, h.2.2.1 7 rfl, h.2.2.2.2.2.2.2.2.1⟩

/-! ## Claims on step 3 -/

/-- Rounding fixes 1. -/
theorem round4_one : round4 1 = 1 := by
  unfold round4
  rw [show (1 : ℚ) * 10000 + 1 / 2 = (10000 : ℤ) + (1 / 2 : ℚ) by norm_num]
  rw [Int.floor_int_add]
  norm_num

/-- C9: the composite builder divides the `quant_score_pct` of each entity by the
maximum over the full quant-score sample (not just the joined rows); an
entity carrying that maximum therefore gets `quant_score_normalized`
exactly 1.0 in its composite row, and its row is in the composite output
whenever the entity has a DAS row. -/
theorem c9_max_entity_normalized_to_one (das : List DasRow) (qs : List QsFinalRow)
    (d : DasRow) (M : ℚ)
    (hd : d ∈ das) (hM : qs_max qs = some M) (hpos : 0 < M)
    (hq : ((qs.find? (fun r => r.lei == d.lei)).bind
      (fun r => r.quant_score_pct)) = some M) :
    (dci_row qs d).quant_score_normalized = some 1 ∧
    dci_row qs d ∈ compute_dci das qs := by
  constructor
  · simp only [dci_row, hq, hM, optDiv]
    rw [if_neg (ne_of_gt hpos), div_self (ne_of_gt hpos)]
    simp [round4_one]
  · exact ((sortDci_perm (das.map (dci_row qs))).mem_iff).mpr
      (List.mem_map_of_mem (dci_row qs) hd)

/-- C9 witness: a two-entity quant-score sample with maximum 5 held by an
entity that has a DAS row; its composite normalization is exactly 1, and
its row is in the composite output. -/
theorem c9_max_entity_normalized_to_one_witness :
    (dci_row [⟨"AAA", some 5⟩, ⟨"BBB", some 2⟩]
      ⟨"AAA", some (1 / 2)⟩).quant_score_normalized = some 1 ∧
    dci_row [⟨"AAA", some 5⟩, ⟨"BBB", some 2⟩] ⟨"AAA", some (1 / 2)⟩ ∈
      compute_dci [⟨"AAA", some (1 / 2)⟩] [⟨"AAA", some 5⟩, ⟨"BBB", some 2⟩] :=
  c9_max_entity_normalized_to_one [⟨"AAA", some (1 / 2)⟩]
    [⟨"AAA", some 5⟩, ⟨"BBB", some 2⟩] ⟨"AAA", some (1 / 2)⟩ 5
    (List.mem_singleton.mpr rfl) rfl (by norm_num) rfl

/-- C10 failing input: `compute_dci` uses a left merge (`how="left"`), not an
inner join — a DAS-scored entity absent from the quant-score table is kept
in the composite output, with missing normalized score and missing DCI,
instead of being excluded. -/
theorem c10_left_join_keeps_unmatched :
    (compute_dci [⟨"AAAA", some (1 / 2)⟩] [⟨"BBBB", some 2⟩]).map
      (fun r => r.lei) = ["AAAA"] ∧
    (compute_dci [⟨"AAAA", some (1 / 2)⟩] [⟨"BBBB", some 2⟩]).map
      (fun r => r.quant_score_normalized) = [none] ∧
    (compute_dci [⟨"AAAA", some (1 / 2)⟩] [⟨"BBBB", some 2⟩]).map
      (fun r => r.dci) = [none] :=
  ⟨rfl, rfl, rfl⟩

end EbaDisclosure
